import Mathlib

set_option autoImplicit false

/- Shallow embedding of the ai-sdk-preview-python-streaming repository:
the chat-message sanitisation and DuckDB-WASM helpers of lib/utils.ts,
and the analytical-query orchestration core (query cache, function-call
coordinator, session retry, response cleaning) of the backend. -/

/-- A tool invocation attached to an assistant chat message: its lifecycle
state (for example "call" or "result") and its call id
(lib/utils.ts, the ToolInvocation entries of Message.toolInvocations). -/
structure ToolInvocation where
  state : String
  toolCallId : String
  deriving DecidableEq

/-- A UI chat message (the Message type of the ai package as used by
sanitizeUIMessages): role, text content, and an optional list of tool
invocations. -/
structure UIMessage where
  role : String
  content : String
  toolInvocations : Option (List ToolInvocation)
  deriving DecidableEq

/-- The per-message body of sanitizeUIMessages (lib/utils.ts lines 11-34):
for an assistant message carrying toolInvocations, collect the ids of the
invocations in state "result" and keep an invocation when its state is
"result" or its id is among the collected ids. -/
def sanitizeUIMessage (message : UIMessage) : UIMessage :=
  if message.role ≠ "assistant" then message else
  match message.toolInvocations with
  | none => message
  | some invs =>
    let toolResultIds : List String :=
      (invs.filter (fun ti => ti.state == "result")).map
        (fun ti => ti.toolCallId)
    let sanitizedToolInvocations : List ToolInvocation :=
      invs.filter (fun ti =>
        ti.state == "result" || toolResultIds.contains ti.toolCallId)
    { message with toolInvocations := some sanitizedToolInvocations }

/-- The final filter of sanitizeUIMessages (lib/utils.ts lines 36-40):
keep a message when its content is nonempty or it carries a nonempty
toolInvocations list. -/
def keepUIMessage (m : UIMessage) : Bool :=
  decide (0 < m.content.length) ||
    (match m.toolInvocations with
     | some invs => decide (0 < invs.length)
     | none => false)

/-- sanitizeUIMessages (lib/utils.ts lines 10-41): sanitise each message,
then drop the messages with empty content and empty-or-absent tool
invocations. -/
def sanitizeUIMessages (messages : List UIMessage) : List UIMessage :=
  (messages.map sanitizeUIMessage).filter keepUIMessage

/-- The simpler per-message function of the claim: an assistant message
carrying toolInvocations keeps exactly the invocations whose state is
"result". -/
def sanitizeUIMessageAlt (message : UIMessage) : UIMessage :=
  if message.role ≠ "assistant" then message else
  match message.toolInvocations with
  | none => message
  | some invs =>
    { message with
        toolInvocations := some (invs.filter (fun ti => ti.state == "result")) }

/-- The simpler whole-list function of the claim, with the same final
filter as sanitizeUIMessages. -/
def sanitizeUIMessagesAlt (messages : List UIMessage) : List UIMessage :=
  (messages.map sanitizeUIMessageAlt).filter keepUIMessage

/-- The value returned by processDuckDBFile (lib/utils.ts lines 91-96):
sample data, the queried table name, the number of tables, and the
reported row count. -/
structure DuckDBProcessResult (Row : Type) where
  data : List Row
  tableName : String
  totalTables : Nat
  rowCount : Nat
  deriving DecidableEq

/-- The observable content of a registered DuckDB file: the tables listed
by information_schema.tables for schema main, in listing order, and the
full row list of each table; a query with LIMIT 1000 returns the first
1000 of those rows. -/
structure DuckDBFile (Row : Type) where
  tables : List String
  tableData : String → List Row

/-- processDuckDBFile (lib/utils.ts lines 91-156): list the tables of the
registered file; with no tables, throw; otherwise query the first table
with LIMIT 1000; with zero returned rows, throw; otherwise return the
data, the table name, the table count and the row count of the returned
data. Thrown errors are embedded as Except.error of the message. -/
def processDuckDBFile {Row : Type} (db : DuckDBFile Row) :
    Except String (DuckDBProcessResult Row) :=
  match db.tables with
  | [] => .error ("No tables found in the DuckDB file")
  | tableName :: _ =>
    let data := (db.tableData tableName).take 1000
    if data.length = 0 then
      .error ("Table " ++ tableName ++ " is empty")
    else
      .ok { data := data, tableName := tableName,
            totalTables := db.tables.length, rowCount := data.length }

/-- The module-level DuckDB singleton of lib/utils.ts (lines 44-45):
duckdbInstance holds the live instance when one exists; instances are
identified by the order of their creation, and nextId is the identity the
next created instance will receive (so created identities are pairwise
distinct). -/
structure DuckDBSingleton where
  duckdbInstance : Option Nat
  nextId : Nat
  deriving DecidableEq

/-- initDuckDB models initializeDuckDB (lib/utils.ts lines 59-89): when
the singleton already holds an instance, return it unchanged; otherwise
attempt to create a fresh instance (instOk says whether the external
bundle/worker instantiation succeeds), store it in the singleton on
success, and rethrow on failure leaving the singleton unset. -/
def initDuckDB (instOk : Bool) (s : DuckDBSingleton) :
    Except String (Nat × DuckDBSingleton) :=
  match s.duckdbInstance with
  | some db => .ok (db, s)
  | none =>
    if instOk then
      .ok (s.nextId,
           { duckdbInstance := some s.nextId, nextId := s.nextId + 1 })
    else
      .error ("Failed to initialize DuckDB")

/-- terminateDuckDB (lib/utils.ts lines 158-163): when an instance is
live, terminate it and reset the singleton to null; otherwise do
nothing. -/
def terminateDuckDB (s : DuckDBSingleton) : DuckDBSingleton :=
  match s.duckdbInstance with
  | some _ => { s with duckdbInstance := none }
  | none => s

/-- A sequence of initializeDuckDB calls with no intervening terminate:
returns the result of every call and the final singleton state. -/
def runInits (oks : List Bool) (s : DuckDBSingleton) :
    List (Except String Nat) × DuckDBSingleton :=
  match oks with
  | [] => ([], s)
  | ok :: rest =>
    match initDuckDB ok s with
    | .ok (db, s1) =>
      let r := runInits rest s1
      (.ok db :: r.1, r.2)
    | .error e =>
      let r := runInits rest s
      (.error e :: r.1, r.2)

/-- Is pat an initial segment of l (character lists)? -/
def listStartsWith : List Char → List Char → Bool
  | [], _ => true
  | _ :: _, [] => false
  | p :: ps, c :: cs => p == c && listStartsWith ps cs

/-- Is pat a contiguous segment of l (character lists)? -/
def listContainsSeg (pat : List Char) : List Char → Bool
  | [] => listStartsWith pat []
  | c :: cs => listStartsWith pat (c :: cs) || listContainsSeg pat cs

/-- Substring test on strings. -/
def strContains (s pat : String) : Bool :=
  listContainsSeg pat.toList s.toList

/-- Lower-casing of a string, character by character. -/
def strLower (s : String) : String :=
  String.mk (s.toList.map Char.toLower)

/-- Modelled from the spec: a CallRequest of one coordinator round, with
its call id, operation name and arguments (the stream_text tool-calling
loop of api/index.py is not under src/; the shape follows section 3 of
the spec and the consolidation sketch of the function-call-response-fix
design document). -/
structure CallRequest where
  callId : String
  opName : String
  args : String
  deriving DecidableEq

deriving instance DecidableEq for Except

/-- Modelled from the spec: a CallResult pairing a call id with a
payload-or-error. -/
structure CallResult where
  callId : String
  payload : Except String String
  deriving DecidableEq

/-- Modelled from the spec: dispatch one CallRequest to the handler
registered for its operation name; a missing handler, like a handler
failure, becomes an error-shaped payload. -/
def dispatchCall (handlers : List (String × (String → Except String String)))
    (req : CallRequest) : CallResult :=
  match handlers.lookup req.opName with
  | some h => { callId := req.callId, payload := h req.args }
  | none =>
    { callId := req.callId,
      payload := .error ("unknown operation " ++ req.opName) }

/-- Modelled from the spec: one HasCalls round of the coordinator —
collect a CallResult for every request, in request order, never omitting
a failed dispatch. -/
def processTurn (handlers : List (String × (String → Except String String))) :
    List CallRequest → List CallResult
  | [] => []
  | req :: rest => dispatchCall handlers req :: processTurn handlers rest

/-- Modelled from the spec: a reasoning-service reply — either more tool
calls or a final plain-text answer. -/
inductive ServiceResponse where
  | hasCalls (calls : List CallRequest)
  | finalAnswer (text : String)

/-- One recorded round: the requests of the round and the consolidated
results sent back. -/
structure TurnRecord where
  requests : List CallRequest
  results : List CallResult
  deriving DecidableEq

/-- Modelled from the spec: how a coordinator run ends — a plain-text
answer, or the TurnLimitExceeded condition. -/
inductive CoordOutcome where
  | answered (text : String)
  | turnLimitExceeded
  deriving DecidableEq

/-- A finished coordinator run: its outcome and the trace of all rounds
driven. -/
structure CoordRun where
  outcome : CoordOutcome
  turns : List TurnRecord
  deriving DecidableEq

/-- Modelled from the spec: the AwaitingResponse loop of the
Function-Call Coordinator. The service reply is a function of the rounds
so far; fuel counts the remaining AwaitingResponse-to-HasCalls cycles,
and running out of it ends the run with TurnLimitExceeded instead of
looping. -/
def coordLoop (service : List TurnRecord → ServiceResponse)
    (handlers : List (String × (String → Except String String))) :
    Nat → List TurnRecord → CoordRun
  | fuel, hist =>
    match service hist with
    | .finalAnswer t => { outcome := .answered t, turns := hist }
    | .hasCalls reqs =>
      match fuel with
      | 0 => { outcome := .turnLimitExceeded, turns := hist }
      | fuel' + 1 =>
        coordLoop service handlers fuel'
          (hist ++ [{ requests := reqs,
                      results := processTurn handlers reqs }])

/-- Modelled from the spec: the default bound on
AwaitingResponse-to-HasCalls cycles. -/
def defaultTurnLimit : Nat := 5

/-- Modelled from the spec: run the coordinator for one question from an
empty history under the default turn limit. -/
def runCoordinator (service : List TurnRecord → ServiceResponse)
    (handlers : List (String × (String → Except String String))) : CoordRun :=
  coordLoop service handlers defaultTurnLimit []

/-- Whitespace test used by question normalization. -/
def isWsChar (c : Char) : Bool :=
  c == ' ' || c == '\t' || c == '\n' || c == '\r'

/-- Collapse every run of whitespace characters to one space. -/
def collapseWsRuns : List Char → List Char
  | [] => []
  | [c] => [if isWsChar c then ' ' else c]
  | c1 :: c2 :: rest =>
    if isWsChar c1 && isWsChar c2 then collapseWsRuns (c2 :: rest)
    else (if isWsChar c1 then ' ' else c1) :: collapseWsRuns (c2 :: rest)

/-- Drop leading and trailing whitespace. -/
def trimWsChars (l : List Char) : List Char :=
  ((l.dropWhile isWsChar).reverse.dropWhile isWsChar).reverse

/-- Modelled from the spec: question normalization of the query-cache key
(query_cache.py is not under src/) — trim, lowercase, collapse internal
whitespace runs to one space. -/
def normalizeQuestion (q : String) : String :=
  String.mk (collapseWsRuns ((trimWsChars q.toList).map Char.toLower))

/-- A cache key: the normalized question together with the database
fingerprint. -/
structure CacheKey where
  questionNorm : String
  dbFingerprint : String
  deriving DecidableEq

/-- Modelled from the spec: the cache-key derivation combines the
normalized question and the database fingerprint through a stable hash;
the hash is modelled by the pair itself, keeping exactly the stability
and determinism the spec relies on. -/
def cacheKey (question dbFingerprint : String) : CacheKey :=
  { questionNorm := normalizeQuestion question, dbFingerprint := dbFingerprint }

/-- One query-cache entry: key, stored answer text, insertion time and
expiry time (seconds). -/
structure CacheEntry where
  key : CacheKey
  answer : String
  insertTime : Nat
  expiry : Nat
  deriving DecidableEq

/-- Modelled from the spec: default per-entry TTL, one hour. -/
def queryCacheTTL : Nat := 3600

/-- Modelled from the spec: default capacity bound of the cache. -/
def queryCacheMaxEntries : Nat := 1000

/-- Remove every entry whose expiry time has been reached. The cache is a
list of entries, newest first. -/
def removeExpired (now : Nat) (c : List CacheEntry) : List CacheEntry :=
  c.filter (fun e => decide (now < e.expiry))

/-- Keep the newest queryCacheMaxEntries entries, removing
oldest-inserted entries from the back of the newest-first list. -/
def enforceCapacity (c : List CacheEntry) : List CacheEntry :=
  c.take queryCacheMaxEntries

/-- Modelled from the spec: store an answer — replace any entry of the
same key wholesale, stamp insertion and expiry times, then remove expired
entries first and only then drop oldest-inserted entries until under
capacity. -/
def cachePut (c : List CacheEntry) (k : CacheKey) (ans : String)
    (now : Nat) : List CacheEntry :=
  enforceCapacity (removeExpired now
    ({ key := k, answer := ans, insertTime := now, expiry := now + queryCacheTTL }
      :: c.filter (fun e => decide (e.key ≠ k))))

/-- Modelled from the spec: look an answer up — return the stored text
when the key is present and unexpired. -/
def cacheGet (c : List CacheEntry) (k : CacheKey) (now : Nat) : Option String :=
  match c.find? (fun e => decide (e.key = k) && decide (now < e.expiry)) with
  | some e => some e.answer
  | none => none

/-- The outcome of one cached answer call: the returned text, the cache
afterwards, and whether the underlying computation ran. -/
structure AnswerStep where
  text : String
  cache : List CacheEntry
  computed : Bool
  deriving DecidableEq

/-- The cache integration documented by FIX_SUMMARY.md (check the cache
before processing, store successful results): on a hit return the cached
text without computing, on a miss compute, store and return the computed
text. -/
def answerWithCache (c : List CacheEntry) (question dbFingerprint : String)
    (now : Nat) (computedAnswer : String) : AnswerStep :=
  match cacheGet c (cacheKey question dbFingerprint) now with
  | some cached => { text := cached, cache := c, computed := false }
  | none =>
    { text := computedAnswer,
      cache := cachePut c (cacheKey question dbFingerprint) computedAnswer now,
      computed := true }

/-- The program counter of one caller in the documented cache
integration: about to check the cache, about to compute and store, or
finished with a returned text. -/
inductive CachePC where
  | check
  | compute
  | done (text : String)
  deriving DecidableEq

/-- The shared state of N concurrent answer calls for one key under the
FIX_SUMMARY.md integration: per-caller program counters, the cache slot
of the key, and how many times the underlying computation has run. -/
structure CacheRace where
  pcs : List CachePC
  cache : Option String
  computeCount : Nat
  deriving DecidableEq

/-- N callers, all about to check a cold cache. -/
def cacheRaceInit (n : Nat) : CacheRace :=
  { pcs := List.replicate n .check, cache := none, computeCount := 0 }

/-- One atomic step of caller i under the documented integration, with
ans the (deterministic, temperature 0.0) computed text: a checking caller
returns a present cached value, otherwise proceeds to compute; a
computing caller runs the computation, stores the result and returns it;
a finished caller does nothing. -/
def cacheRaceStep (ans : String) (s : CacheRace) (i : Nat) : CacheRace :=
  match s.pcs[i]? with
  | none => s
  | some .check =>
    match s.cache with
    | some v => { s with pcs := s.pcs.set i (.done v) }
    | none => { s with pcs := s.pcs.set i .compute }
  | some .compute =>
    { s with pcs := s.pcs.set i (.done ans),
             cache := some ans,
             computeCount := s.computeCount + 1 }
  | some (.done _) => s

/-- Run an interleaving: the schedule lists which caller takes each
atomic step. -/
def cacheRaceRun (ans : String) (s : CacheRace) (sched : List Nat) : CacheRace :=
  sched.foldl (cacheRaceStep ans) s

/-- The fault classification of execute_with_retry in the
function-call-response-fix design document: a failure is retried exactly
when its message contains "database function error", case-insensitively. -/
def isDbFunctionFault (msg : String) : Bool :=
  strContains (strLower msg) ("database function error")

/-- The attempt bound of EnhancedDuckDBSession (retry_count = 3). -/
def retryCount : Nat := 3

/-- How get_robust_connection ends: a connection created on a given
attempt, or the DuckDBSessionError raised after the bound. -/
inductive ConnResult where
  | conn (attempt : Nat)
  | sessionError (msg : String)
  deriving DecidableEq

/-- A finished get_robust_connection call: its result, how many attempts
ran, and the sleeps (milliseconds) taken between attempts. -/
structure ConnTrace where
  result : ConnResult
  attemptsUsed : Nat
  sleepsMs : List Nat
  deriving DecidableEq

/-- The attempt loop of get_robust_connection (design document lines
101-112): try to establish a connection; on failure of the last allowed
attempt raise DuckDBSessionError, otherwise sleep 0.5 * (attempt + 1)
seconds and try again. connOk says which attempts would succeed. -/
def connectLoop (connOk : Nat → Bool) : Nat → Nat → ConnTrace
  | 0, _ =>
    { result := .sessionError ("Failed to establish connection"),
      attemptsUsed := 0, sleepsMs := [] }
  | fuel + 1, idx =>
    if connOk idx then
      { result := .conn idx, attemptsUsed := 1, sleepsMs := [] }
    else
      match fuel with
      | 0 =>
        { result := .sessionError ("Failed to establish connection"),
          attemptsUsed := 1, sleepsMs := [] }
      | _ + 1 =>
        let rest := connectLoop connOk fuel (idx + 1)
        { result := rest.result, attemptsUsed := rest.attemptsUsed + 1,
          sleepsMs := 500 * (idx + 1) :: rest.sleepsMs }

/-- get_robust_connection with the fixed attempt bound. -/
def get_robust_connection (connOk : Nat → Bool) : ConnTrace :=
  connectLoop connOk retryCount 0

/-- One execution attempt as the engine reports it: result rows, or a
raised failure message. -/
inductive ExecOutcome where
  | rows (payload : String)
  | fail (msg : String)
  deriving DecidableEq

/-- How execute_with_retry ends: fetched rows, or the exception it
re-raises. -/
inductive ExecResult where
  | ok (payload : String)
  | raised (msg : String)
  deriving DecidableEq

/-- A finished execute_with_retry call: its result and how many execution
attempts ran. -/
structure ExecTrace where
  result : ExecResult
  attemptsUsed : Nat
  deriving DecidableEq

/-- The attempt loop of execute_with_retry (design document lines
114-126): execute; on a failure whose message is a database-function
fault, reset the connection and retry while attempts remain; any other
failure, or the database-function fault of the last attempt, is re-raised
as it is. engine gives the outcome of each attempt. -/
def executeLoop (engine : Nat → ExecOutcome) : Nat → Nat → ExecTrace
  | 0, _ => { result := .raised ("retry loop exhausted"), attemptsUsed := 0 }
  | fuel + 1, idx =>
    match engine idx with
    | .rows p => { result := .ok p, attemptsUsed := 1 }
    | .fail msg =>
      if isDbFunctionFault msg then
        match fuel with
        | 0 => { result := .raised msg, attemptsUsed := 1 }
        | _ + 1 =>
          let rest := executeLoop engine fuel (idx + 1)
          { result := rest.result, attemptsUsed := rest.attemptsUsed + 1 }
      else { result := .raised msg, attemptsUsed := 1 }

/-- execute_with_retry with the fixed attempt bound; the sql argument is
taken, as in the source, and never attached to a raised failure. -/
def execute_with_retry (engine : Nat → ExecOutcome) (sql : String) : ExecTrace :=
  executeLoop engine retryCount 0

/-- A Python value as the response-processing layer handles them:
strings, booleans, integers, None, dicts and lists. -/
inductive PyVal where
  | str (s : String)
  | boolVal (b : Bool)
  | intVal (n : Int)
  | noneVal
  | dict (kvs : List (String × PyVal))
  | listVal (xs : List PyVal)

/-- Key lookup in a Python dict (keys are unique; first match). -/
def pyLookup : List (String × PyVal) → String → Option PyVal
  | [], _ => Option.none
  | (k, v) :: rest, key => if k == key then Option.some v else pyLookup rest key

mutual

/-- The Python repr of a value, as it appears inside str() of a
containing structure: quoted strings, True/False/None, brace-delimited
dicts, bracket-delimited lists. -/
def pyRepr : PyVal → String
  | .str s => "\x27" ++ s ++ "\x27"
  | .boolVal b => if b then "True" else "False"
  | .intVal n => toString n
  | .noneVal => "None"
  | .dict kvs => "\x7b" ++ pyReprPairs kvs ++ "\x7d"
  | .listVal xs => "[" ++ pyReprList xs ++ "]"

/-- Comma-separated key: value pairs of a dict repr. -/
def pyReprPairs : List (String × PyVal) → String
  | [] => ""
  | (k, v) :: rest =>
    let head := "\x27" ++ k ++ "\x27: " ++ pyRepr v
    match rest with
    | [] => head
    | _ :: _ => head ++ ", " ++ pyReprPairs rest

/-- Comma-separated elements of a list repr. -/
def pyReprList : List PyVal → String
  | [] => ""
  | v :: rest =>
    match rest with
    | [] => pyRepr v
    | _ :: _ => pyRepr v ++ ", " ++ pyReprList rest

end

/-- Python str(): a string is itself, every other value is its repr. -/
def pyStrOf : PyVal → String
  | .str s => s
  | v => pyRepr v

/-- extract_clean_response (design document lines 51-55): a dict carrying
an "answer" key yields the value under that key; anything else is
stringified whole. -/
def extract_clean_response (response_data : PyVal) : PyVal :=
  match response_data with
  | .dict kvs =>
    match pyLookup kvs ("answer") with
    | Option.some a => a
    | Option.none => .str (pyStrOf (.dict kvs))
  | v => .str (pyStrOf v)

/-- Python truthiness of the values PyVal models. -/
def pyTruthy : PyVal → Bool
  | .str s => decide (0 < s.length)
  | .boolVal b => b
  | .intVal n => decide (n ≠ 0)
  | .noneVal => false
  | .dict kvs => decide (0 < kvs.length)
  | .listVal xs => decide (0 < xs.length)

/-- dict.get with a default. -/
def dictGetD (kvs : List (String × PyVal)) (key : String) (dflt : PyVal) : PyVal :=
  match pyLookup kvs key with
  | Option.some v => v
  | Option.none => dflt

/-- analyze_duckdb (design document lines 58-64): on a truthy success
flag return a response dict holding only the answer (a missing answer key
raises KeyError, embedded as Except.error); otherwise return an error
dict holding the error text, defaulted to "Analysis failed". -/
def analyze_duckdb (result : List (String × PyVal)) : Except String PyVal :=
  if pyTruthy (dictGetD result ("success") .noneVal) then
    match pyLookup result ("answer") with
    | Option.some a => .ok (.dict [("response", a)])
    | Option.none => .error ("KeyError: answer")
  else
    .ok (.dict [("error", dictGetD result ("error") (.str ("Analysis failed")))])

/- Theorems. -/

theorem sanitizeFilter_eq_of_sep (invs : List ToolInvocation)
    (h : ∀ ti ∈ invs, ∀ tj ∈ invs, tj.state = "result" →
      ti.toolCallId = tj.toolCallId → ti.state = "result") :
    invs.filter (fun ti =>
        ti.state == "result" ||
          ((invs.filter (fun t => t.state == "result")).map
            (fun t => t.toolCallId)).contains ti.toolCallId)
      = invs.filter (fun ti => ti.state == "result") := by
  apply List.filter_congr
  intro ti hti
  cases hres : (ti.state == "result") with
  | true => simp [hres]
  | false =>
    simp only [hres, Bool.false_or]
    cases hc : ((invs.filter (fun t => t.state == "result")).map
        (fun t => t.toolCallId)).contains ti.toolCallId with
    | false => rfl
    | true =>
      exfalso
      have hmem := List.elem_iff.mp hc
      obtain ⟨tj, htj, hid⟩ := List.mem_map.mp hmem
      have htj2 := List.mem_filter.mp htj
      have hstj : tj.state = "result" := by
        simpa using htj2.2
      have := h ti hti tj htj2.1 hstj hid.symm
      rw [this] at hres
      simp at hres

theorem sanitizeUIMessage_eq_alt_of_sep (m : UIMessage)
    (h : ∀ invs, m.toolInvocations = some invs →
      ∀ ti ∈ invs, ∀ tj ∈ invs, tj.state = "result" →
        ti.toolCallId = tj.toolCallId → ti.state = "result") :
    sanitizeUIMessage m = sanitizeUIMessageAlt m := by
  unfold sanitizeUIMessage sanitizeUIMessageAlt
  by_cases hrole : m.role ≠ "assistant"
  · simp [hrole]
  · simp only [hrole, if_false]
    cases hinv : m.toolInvocations with
    | none => rfl
    | some invs =>
      simp only []
      rw [sanitizeFilter_eq_of_sep invs (h invs hinv)]

/-- C8 (counterexample): sanitizeUIMessages is not extensionally equal to
the simpler function that keeps exactly the "result"-state invocations.
On an assistant message holding a "call"-state invocation that shares its
toolCallId with a "result"-state invocation, the second disjunct of the
filter keeps the "call"-state invocation, so the two functions disagree;
and on a user message a "call"-state invocation survives in the output
unchanged, so not every surviving tool invocation has state "result". -/
theorem C8_sanitize_counterexample :
    sanitizeUIMessages
        [{ role := "assistant", content := "",
           toolInvocations := some
             [{ state := "call", toolCallId := "x" },
              { state := "result", toolCallId := "x" }] }] ≠
      sanitizeUIMessagesAlt
        [{ role := "assistant", content := "",
           toolInvocations := some
             [{ state := "call", toolCallId := "x" },
              { state := "result", toolCallId := "x" }] }] ∧
    sanitizeUIMessages
        [{ role := "user", content := "hi",
           toolInvocations := some [{ state := "call", toolCallId := "y" }] }] =
      [{ role := "user", content := "hi",
         toolInvocations := some [{ state := "call", toolCallId := "y" }] }] := by
  exact ⟨by decide, by decide⟩

/-- C8 (amended): provided that, within each message, no tool invocation
shares its toolCallId with a "result"-state invocation unless it is
itself in state "result", sanitizeUIMessages agrees with the simpler
function that keeps exactly the "result"-state invocations of each
assistant message and then drops every message with empty content and
empty-or-absent invocation list; and then every tool invocation surviving
in an assistant message of the output has state "result". -/
theorem C8_sanitize_equiv_amended (messages : List UIMessage)
    (hsep : ∀ m ∈ messages, ∀ invs, m.toolInvocations = some invs →
      ∀ ti ∈ invs, ∀ tj ∈ invs, tj.state = "result" →
        ti.toolCallId = tj.toolCallId → ti.state = "result") :
    sanitizeUIMessages messages = sanitizeUIMessagesAlt messages ∧
    ∀ m ∈ sanitizeUIMessages messages, m.role = "assistant" →
      ∀ invs, m.toolInvocations = some invs → ∀ ti ∈ invs, ti.state = "result" := by
  constructor
  · unfold sanitizeUIMessages sanitizeUIMessagesAlt
    rw [List.map_congr_left
      (fun m hm => sanitizeUIMessage_eq_alt_of_sep m (hsep m hm))]
  · intro m hm hrole invs hinvs ti hti
    have hm2 := (List.mem_filter.mp hm).1
    obtain ⟨m0, hm0, hm0eq⟩ := List.mem_map.mp hm2
    rw [sanitizeUIMessage_eq_alt_of_sep m0 (hsep m0 hm0)] at hm0eq
    subst hm0eq
    by_cases hrole0 : m0.role ≠ "assistant"
    · have hid : sanitizeUIMessageAlt m0 = m0 := by
        unfold sanitizeUIMessageAlt
        rw [if_pos hrole0]
      rw [hid] at hrole
      exact absurd hrole hrole0
    · cases hinv0 : m0.toolInvocations with
      | none =>
        have hid : sanitizeUIMessageAlt m0 = m0 := by
          unfold sanitizeUIMessageAlt
          rw [if_neg hrole0, hinv0]
        rw [hid, hinv0] at hinvs
        exact Option.noConfusion hinvs
      | some invs0 =>
        have halt : sanitizeUIMessageAlt m0 =
            { m0 with toolInvocations := some (invs0.filter (fun t => t.state == "result")) } := by
          unfold sanitizeUIMessageAlt
          rw [if_neg hrole0, hinv0]
        rw [halt] at hinvs
        have hfi : invs = invs0.filter (fun t => t.state == "result") :=
          (Option.some.inj hinvs).symm
        subst hfi
        have := (List.mem_filter.mp hti).2
        simpa using this

/-- C8 (witness): the amended equivalence applied to a concrete message
list whose call ids separate "call" and "result" invocations. -/
theorem C8_sanitize_equiv_amended_witness :
    sanitizeUIMessages
        [{ role := "assistant", content := "ok",
           toolInvocations := some
             [{ state := "result", toolCallId := "a" },
              { state := "call", toolCallId := "b" }] }] =
      sanitizeUIMessagesAlt
        [{ role := "assistant", content := "ok",
           toolInvocations := some
             [{ state := "result", toolCallId := "a" },
              { state := "call", toolCallId := "b" }] }] ∧
    ∀ m ∈ sanitizeUIMessages
        [{ role := "assistant", content := "ok",
           toolInvocations := some
             [{ state := "result", toolCallId := "a" },
              { state := "call", toolCallId := "b" }] }],
      m.role = "assistant" →
      ∀ invs, m.toolInvocations = some invs → ∀ ti ∈ invs, ti.state = "result" := by
  apply C8_sanitize_equiv_amended
  intro m hm invs hinvs
  have hm1 : m = { role := "assistant", content := "ok",
                   toolInvocations := some [{ state := "result", toolCallId := "a" },
                                            { state := "call", toolCallId := "b" }] } := by
    simpa using hm
  subst hm1
  have hinvs2 : invs =
      [({ state := "result", toolCallId := "a" } : ToolInvocation),
       { state := "call", toolCallId := "b" }] :=
    (Option.some.inj hinvs).symm
  subst hinvs2
  decide

/-- C9: processDuckDBFile throws exactly when the registered file lists
no tables in schema main or the first listed table yields zero rows; on
success, tableName is the first listed table, rowCount is the length of
the returned data, and rowCount lies between 1 and 1000 (the query is
capped by LIMIT 1000), so the reported count never exceeds 1000. -/
theorem C9_processDuckDBFile_spec {Row : Type} (db : DuckDBFile Row) :
    ((∃ e, processDuckDBFile db = .error e) ↔
      db.tables = [] ∨ ∃ t ts, db.tables = t :: ts ∧ db.tableData t = []) ∧
    (∀ r, processDuckDBFile db = .ok r →
      ∃ t ts, db.tables = t :: ts ∧ r.tableName = t ∧
        r.rowCount = r.data.length ∧ 1 ≤ r.rowCount ∧ r.rowCount ≤ 1000) := by
  cases htab : db.tables with
  | nil =>
    have hv : processDuckDBFile db =
        Except.error ("No tables found in the DuckDB file") := by
      unfold processDuckDBFile
      rw [htab]
    refine ⟨⟨fun _ => Or.inl rfl, fun _ => ⟨_, hv⟩⟩, fun r hr => ?_⟩
    rw [hv] at hr
    exact Except.noConfusion hr
  | cons t ts =>
    by_cases hd : ((db.tableData t).take 1000).length = 0
    · have hv : processDuckDBFile db =
          Except.error ("Table " ++ t ++ " is empty") := by
        unfold processDuckDBFile
        rw [htab]
        exact if_pos hd
      refine ⟨⟨fun _ => Or.inr ⟨t, ts, rfl, ?_⟩, fun _ => ⟨_, hv⟩⟩,
        fun r hr => ?_⟩
      · have h0 : (db.tableData t).take 1000 = [] := List.length_eq_zero.mp hd
        rcases List.take_eq_nil_iff.mp h0 with h | h
        · exact absurd h (by norm_num)
        · exact h
      · rw [hv] at hr
        exact Except.noConfusion hr
    · have hv : processDuckDBFile db =
          Except.ok { data := (db.tableData t).take 1000, tableName := t,
                      totalTables := (t :: ts).length,
                      rowCount := ((db.tableData t).take 1000).length } := by
        unfold processDuckDBFile
        rw [htab]
        exact if_neg hd
      refine ⟨⟨fun he => ?_, fun h => ?_⟩, fun r hr => ?_⟩
      · obtain ⟨e, he⟩ := he
        rw [hv] at he
        exact Except.noConfusion he
      · exfalso
        rcases h with h | ⟨t2, ts2, heq, hdat⟩
        · exact List.noConfusion h
        · obtain ⟨ht2, hts2⟩ := List.cons.inj heq
          subst ht2
          rw [hdat] at hd
          simp at hd
      · rw [hv] at hr
        injection hr with hr2
        subst hr2
        refine ⟨t, ts, rfl, rfl, rfl, ?_, ?_⟩
        · exact Nat.one_le_iff_ne_zero.mpr hd
        · exact List.length_take_le 1000 (db.tableData t)

/-- C9 (witness): the success branch at a one-table, one-row file and the
error branch at a table-less file, both concrete. -/
theorem C9_processDuckDBFile_witness :
    (∃ t ts, ({ tables := ["deals"], tableData := fun _ => [0] } :
        DuckDBFile Nat).tables = t :: ts ∧
      ({ data := [0], tableName := "deals", totalTables := 1, rowCount := 1 } :
        DuckDBProcessResult Nat).tableName = t ∧
      (1 : Nat) = 1 ∧ 1 ≤ 1 ∧ (1 : Nat) ≤ 1000) ∧
    (∃ e, processDuckDBFile ({ tables := [], tableData := fun _ => [0] } :
        DuckDBFile Nat) = .error e) := by
  constructor
  · have h := (C9_processDuckDBFile_spec
      ({ tables := ["deals"], tableData := fun _ => [0] } : DuckDBFile Nat)).2
    have h2 := h { data := [0], tableName := "deals", totalTables := 1,
                   rowCount := 1 } (by rfl)
    obtain ⟨t, ts, h3, h4, h5, h6, h7⟩ := h2
    exact ⟨t, ts, h3, h4, rfl, by norm_num, by norm_num⟩
  · exact ((C9_processDuckDBFile_spec
      ({ tables := [], tableData := fun _ => [0] } : DuckDBFile Nat)).1).mpr
      (Or.inl rfl)

theorem runInits_of_instance (s : DuckDBSingleton) (i : Nat)
    (h : s.duckdbInstance = some i) (oks : List Bool) :
    runInits oks s = (oks.map (fun _ => Except.ok i), s) := by
  induction oks with
  | nil => rfl
  | cons ok rest ih =>
    have hinit : initDuckDB ok s = .ok (i, s) := by
      unfold initDuckDB
      rw [h]
    unfold runInits
    rw [hinit]
    simp [ih]

/-- C10: after any successful initializeDuckDB call the singleton holds
the returned instance, and any sequence of further calls with no
intervening terminateDuckDB returns that same instance every time with
the singleton state unchanged (so nothing is re-instantiated and at most
one live instance exists); terminateDuckDB resets the singleton to null,
and a subsequent successful call creates a fresh instance, distinct from
the terminated one whenever the singleton respects the creation-counter
invariant, which every successful call preserves. -/
theorem C10_duckdb_singleton (s : DuckDBSingleton) :
    (∀ ok i s2, initDuckDB ok s = .ok (i, s2) →
      s2.duckdbInstance = some i ∧
      ∀ oks, runInits oks s2 = (oks.map (fun _ => Except.ok i), s2)) ∧
    (terminateDuckDB s).duckdbInstance = none ∧
    (∀ i, s.duckdbInstance = some i → i < s.nextId →
      initDuckDB true (terminateDuckDB s) =
        .ok (s.nextId, { duckdbInstance := some s.nextId,
                         nextId := s.nextId + 1 }) ∧
      s.nextId ≠ i) ∧
    (∀ ok i s2, (∀ (j : Nat), s.duckdbInstance = some j → j < s.nextId) →
      initDuckDB ok s = .ok (i, s2) →
      ∀ (j : Nat), s2.duckdbInstance = some j → j < s2.nextId) := by
  refine ⟨?_, ?_, ?_, ?_⟩
  · intro ok i s2 hinit
    cases hs : s.duckdbInstance with
    | some db =>
      have : initDuckDB ok s = .ok (db, s) := by
        unfold initDuckDB
        rw [hs]
      rw [this] at hinit
      injection hinit with h2
      obtain ⟨h3, h4⟩ := Prod.mk.inj h2
      subst h3
      subst h4
      exact ⟨hs, runInits_of_instance _ _ hs⟩
    | none =>
      cases ok with
      | true =>
        have : initDuckDB true s =
            .ok (s.nextId, { duckdbInstance := some s.nextId,
                             nextId := s.nextId + 1 }) := by
          unfold initDuckDB
          rw [hs]
          rfl
        rw [this] at hinit
        injection hinit with h2
        obtain ⟨h3, h4⟩ := Prod.mk.inj h2
        subst h3
        subst h4
        refine ⟨rfl, runInits_of_instance _ _ rfl⟩
      | false =>
        have : initDuckDB false s = .error ("Failed to initialize DuckDB") := by
          unfold initDuckDB
          rw [hs]
          rfl
        rw [this] at hinit
        exact Except.noConfusion hinit
  · unfold terminateDuckDB
    cases hs : s.duckdbInstance with
    | some db => rfl
    | none => exact hs
  · intro i hs hlt
    have hterm : terminateDuckDB s = { s with duckdbInstance := none } := by
      unfold terminateDuckDB
      rw [hs]
    constructor
    · rw [hterm]
      unfold initDuckDB
      rfl
    · exact fun h => absurd (h ▸ hlt) (Nat.lt_irrefl s.nextId)
  · intro ok i s2 hinv hinit j hj
    cases hs : s.duckdbInstance with
    | some db =>
      have : initDuckDB ok s = .ok (db, s) := by
        unfold initDuckDB
        rw [hs]
      rw [this] at hinit
      injection hinit with h2
      obtain ⟨h3, h4⟩ := Prod.mk.inj h2
      subst h4
      exact hinv j hj
    | none =>
      cases ok with
      | true =>
        have : initDuckDB true s =
            .ok (s.nextId, { duckdbInstance := some s.nextId,
                             nextId := s.nextId + 1 }) := by
          unfold initDuckDB
          rw [hs]
          rfl
        rw [this] at hinit
        injection hinit with h2
        obtain ⟨h3, h4⟩ := Prod.mk.inj h2
        subst h4
        have hj2 : s.nextId = j := Option.some.inj hj
        rw [← hj2]
        exact Nat.lt_succ_self s.nextId
      | false =>
        have : initDuckDB false s = .error ("Failed to initialize DuckDB") := by
          unfold initDuckDB
          rw [hs]
          rfl
        rw [this] at hinit
        exact Except.noConfusion hinit

/-- C10 (witness): the theorem instantiated at the concrete singleton
states before and after a first successful call, a terminate, and a
fresh re-creation. -/
theorem C10_duckdb_singleton_witness :
    (({ duckdbInstance := some 0, nextId := 1 } :
        DuckDBSingleton).duckdbInstance = some 0 ∧
      ∀ oks, runInits oks { duckdbInstance := some 0, nextId := 1 } =
        (oks.map (fun _ => Except.ok 0),
         { duckdbInstance := some 0, nextId := 1 })) ∧
    (initDuckDB true (terminateDuckDB { duckdbInstance := some 0, nextId := 1 }) =
      .ok (1, { duckdbInstance := some 1, nextId := 2 }) ∧
      (1 : Nat) ≠ 0) := by
  constructor
  · exact (C10_duckdb_singleton
      { duckdbInstance := none, nextId := 0 }).1 true 0
      { duckdbInstance := some 0, nextId := 1 } (by rfl)
  · exact ((C10_duckdb_singleton
      { duckdbInstance := some 0, nextId := 1 }).2.2.1) 0 rfl (by norm_num)

theorem dispatchCall_callId
    (handlers : List (String × (String → Except String String)))
    (req : CallRequest) : (dispatchCall handlers req).callId = req.callId := by
  unfold dispatchCall
  cases handlers.lookup req.opName with
  | some h => rfl
  | none => rfl

theorem processTurn_map_callId
    (handlers : List (String × (String → Except String String)))
    (reqs : List CallRequest) :
    (processTurn handlers reqs).map CallResult.callId =
      reqs.map CallRequest.callId := by
  induction reqs with
  | nil => rfl
  | cons req rest ih =>
    simp only [processTurn, List.map_cons, dispatchCall_callId, ih]

theorem coordLoop_turns_spec (service : List TurnRecord → ServiceResponse)
    (handlers : List (String × (String → Except String String))) :
    ∀ fuel hist, (∀ tr ∈ hist, tr.results = processTurn handlers tr.requests) →
      ∀ tr ∈ (coordLoop service handlers fuel hist).turns,
        tr.results = processTurn handlers tr.requests := by
  intro fuel
  induction fuel with
  | zero =>
    intro hist hhist tr htr
    unfold coordLoop at htr
    cases hresp : service hist with
    | finalAnswer t =>
      rw [hresp] at htr
      exact hhist tr htr
    | hasCalls reqs =>
      rw [hresp] at htr
      exact hhist tr htr
  | succ fuel ih =>
    intro hist hhist tr htr
    unfold coordLoop at htr
    cases hresp : service hist with
    | finalAnswer t =>
      rw [hresp] at htr
      exact hhist tr htr
    | hasCalls reqs =>
      rw [hresp] at htr
      refine ih
        (hist ++ [{ requests := reqs, results := processTurn handlers reqs }])
        ?_ tr htr
      intro tr2 htr2
      rcases List.mem_append.mp htr2 with h | h
      · exact hhist tr2 h
      · rw [List.mem_singleton] at h
        subst h
        rfl

/-- C1: in every round of every coordinator run, the consolidated result
list has exactly the length of the request list, carries the same call
ids in the same order (hence the same id set), and this holds for every
registry of handlers, including handlers that fail — a failed dispatch is
an error-shaped CallResult, never an omission. -/
theorem C1_call_pairing (service : List TurnRecord → ServiceResponse)
    (handlers : List (String × (String → Except String String))) :
    ∀ tr ∈ (runCoordinator service handlers).turns,
      tr.results.length = tr.requests.length ∧
      tr.results.map CallResult.callId = tr.requests.map CallRequest.callId ∧
      ∀ cid, cid ∈ tr.results.map CallResult.callId ↔
        cid ∈ tr.requests.map CallRequest.callId := by
  intro tr htr
  have hres : tr.results = processTurn handlers tr.requests :=
    coordLoop_turns_spec service handlers defaultTurnLimit []
      (fun tr2 h => absurd h (List.not_mem_nil tr2)) tr htr
  rw [hres]
  refine ⟨?_, processTurn_map_callId handlers tr.requests, ?_⟩
  · rw [← List.length_map (processTurn handlers tr.requests) CallResult.callId,
      processTurn_map_callId handlers tr.requests,
      List.length_map]
  · intro cid
    rw [processTurn_map_callId handlers tr.requests]

/-- C1 (witness): a concrete two-call round in which the second call has
no registered handler, so its dispatch fails; the pairing invariant holds
at that round. -/
theorem C1_call_pairing_witness :
    ({ requests :=
         [{ callId := "1", opName := "execute_sql", args := "SELECT 1" },
          { callId := "2", opName := "missing_op", args := "" }],
       results :=
         [{ callId := "1", payload := Except.ok ("rows") },
          { callId := "2",
            payload := Except.error ("unknown operation missing_op") }] } :
        TurnRecord).results.length =
      ({ requests :=
           [{ callId := "1", opName := "execute_sql", args := "SELECT 1" },
            { callId := "2", opName := "missing_op", args := "" }],
         results :=
           [{ callId := "1", payload := Except.ok ("rows") },
            { callId := "2",
              payload := Except.error ("unknown operation missing_op") }] } :
          TurnRecord).requests.length ∧
    ("2" ∈
        ([{ callId := "1", payload := Except.ok ("rows") },
          { callId := "2",
            payload := Except.error ("unknown operation missing_op") }] :
          List CallResult).map CallResult.callId ↔
      "2" ∈
        ([{ callId := "1", opName := "execute_sql", args := "SELECT 1" },
          { callId := "2", opName := "missing_op", args := "" }] :
          List CallRequest).map CallRequest.callId) := by
  have h := C1_call_pairing
    (fun hist => if hist.length = 0 then
        ServiceResponse.hasCalls
          [{ callId := "1", opName := "execute_sql", args := "SELECT 1" },
           { callId := "2", opName := "missing_op", args := "" }]
      else ServiceResponse.finalAnswer "done")
    [("execute_sql", fun _ => Except.ok ("rows"))]
    { requests :=
        [{ callId := "1", opName := "execute_sql", args := "SELECT 1" },
         { callId := "2", opName := "missing_op", args := "" }],
      results :=
        [{ callId := "1", payload := Except.ok ("rows") },
         { callId := "2",
           payload := Except.error ("unknown operation missing_op") }] }
    (by decide)
  exact ⟨h.1, h.2.2 "2"⟩

theorem coordLoop_turns_length (service : List TurnRecord → ServiceResponse)
    (handlers : List (String × (String → Except String String))) :
    ∀ fuel hist,
      (coordLoop service handlers fuel hist).turns.length ≤
        hist.length + fuel := by
  intro fuel
  induction fuel with
  | zero =>
    intro hist
    unfold coordLoop
    cases hresp : service hist with
    | finalAnswer t => simp
    | hasCalls reqs => simp
  | succ fuel ih =>
    intro hist
    unfold coordLoop
    cases hresp : service hist with
    | finalAnswer t => simp
    | hasCalls reqs =>
      have h := ih
        (hist ++ [{ requests := reqs, results := processTurn handlers reqs }])
      simp only [List.length_append, List.length_singleton] at h
      exact le_trans h (by omega)

theorem coordLoop_pathological (service : List TurnRecord → ServiceResponse)
    (handlers : List (String × (String → Except String String)))
    (hsvc : ∀ hist, ∃ calls, service hist = ServiceResponse.hasCalls calls) :
    ∀ fuel hist,
      (coordLoop service handlers fuel hist).outcome =
        CoordOutcome.turnLimitExceeded := by
  intro fuel
  induction fuel with
  | zero =>
    intro hist
    obtain ⟨calls, hc⟩ := hsvc hist
    unfold coordLoop
    rw [hc]
  | succ fuel ih =>
    intro hist
    obtain ⟨calls, hc⟩ := hsvc hist
    unfold coordLoop
    rw [hc]
    exact ih _

/-- C4: every coordinator run drives at most defaultTurnLimit (five)
HasCalls rounds, whatever the reasoning service and handlers do; and a
pathological service that keeps returning more calls on every reply makes
the run end with the TurnLimitExceeded outcome instead of looping. -/
theorem C4_turn_limit (service : List TurnRecord → ServiceResponse)
    (handlers : List (String × (String → Except String String))) :
    (runCoordinator service handlers).turns.length ≤ defaultTurnLimit ∧
    ((∀ hist, ∃ calls, service hist = ServiceResponse.hasCalls calls) →
      (runCoordinator service handlers).outcome =
        CoordOutcome.turnLimitExceeded) := by
  constructor
  · have h := coordLoop_turns_length service handlers defaultTurnLimit []
    simpa using h
  · intro hsvc
    exact coordLoop_pathological service handlers hsvc defaultTurnLimit []

/-- C4 (witness): the pathological service that always asks for one more
call is stopped with TurnLimitExceeded, within the default bound. -/
theorem C4_turn_limit_witness :
    (runCoordinator
        (fun _ => ServiceResponse.hasCalls
          [{ callId := "1", opName := "execute_sql", args := "SELECT 1" }])
        []).turns.length ≤ defaultTurnLimit ∧
    (runCoordinator
        (fun _ => ServiceResponse.hasCalls
          [{ callId := "1", opName := "execute_sql", args := "SELECT 1" }])
        []).outcome = CoordOutcome.turnLimitExceeded := by
  have h := C4_turn_limit
    (fun _ => ServiceResponse.hasCalls
      [{ callId := "1", opName := "execute_sql", args := "SELECT 1" }])
    []
  exact ⟨h.1, h.2 (fun hist =>
    ⟨[{ callId := "1", opName := "execute_sql", args := "SELECT 1" }], rfl⟩)⟩

theorem cachePut_head (c : List CacheEntry) (k : CacheKey) (ans : String)
    (now : Nat) :
    ∃ rest, cachePut c k ans now =
      { key := k, answer := ans, insertTime := now,
        expiry := now + queryCacheTTL } :: rest := by
  unfold cachePut removeExpired enforceCapacity
  rw [List.filter_cons_of_pos (by simp [queryCacheTTL])]
  exact ⟨_, List.take_succ_cons⟩

theorem cacheGet_cons_of_hit (x : CacheEntry) (l : List CacheEntry)
    (k : CacheKey) (now : Nat) (hk : x.key = k) (hexp : now < x.expiry) :
    cacheGet (x :: l) k now = some x.answer := by
  unfold cacheGet
  rw [List.find?_cons_of_pos _ (by simp [hk, hexp])]

theorem cacheGet_cachePut_within (c : List CacheEntry) (k : CacheKey)
    (ans : String) (t tp : Nat) (h : tp < t + queryCacheTTL) :
    cacheGet (cachePut c k ans t) k tp = some ans := by
  obtain ⟨rest, hshape⟩ := cachePut_head c k ans t
  rw [hshape]
  exact cacheGet_cons_of_hit _ rest k tp rfl h

/-- C3: two question strings that agree after normalization (trim,
lowercase, collapse internal whitespace runs) derive, with the same
database fingerprint, the identical cache key; consequently a first
answer call that misses and stores, followed before the TTL expiry of
that entry by a call for the other phrasing, returns the byte-identical
stored text with no recomputation, whatever the second computation would
have produced. -/
theorem C3_cache_idempotence (q1 q2 fp : String)
    (hnorm : normalizeQuestion q1 = normalizeQuestion q2)
    (c : List CacheEntry) (ans other : String) (t tp : Nat)
    (hmiss : cacheGet c (cacheKey q1 fp) t = none)
    (hfresh : tp < t + queryCacheTTL) :
    cacheKey q1 fp = cacheKey q2 fp ∧
    (answerWithCache c q1 fp t ans).text = ans ∧
    (answerWithCache (answerWithCache c q1 fp t ans).cache q2 fp tp other).text
      = (answerWithCache c q1 fp t ans).text ∧
    (answerWithCache (answerWithCache c q1 fp t ans).cache q2 fp tp
        other).computed = false := by
  have hkey : cacheKey q1 fp = cacheKey q2 fp := by
    unfold cacheKey
    rw [hnorm]
  have hs1 : answerWithCache c q1 fp t ans =
      { text := ans, cache := cachePut c (cacheKey q1 fp) ans t,
        computed := true } := by
    unfold answerWithCache
    rw [hmiss]
  have hget2 : cacheGet (cachePut c (cacheKey q1 fp) ans t)
      (cacheKey q2 fp) tp = some ans := by
    rw [← hkey]
    exact cacheGet_cachePut_within c (cacheKey q1 fp) ans t tp hfresh
  have hs2 : answerWithCache (cachePut c (cacheKey q1 fp) ans t) q2 fp tp
      other = { text := ans, cache := cachePut c (cacheKey q1 fp) ans t,
                computed := false } := by
    unfold answerWithCache
    rw [hget2]
  refine ⟨hkey, ?_, ?_, ?_⟩
  · rw [hs1]
  · simp [hs1, hs2]
  · simp [hs1, hs2]

/-- C3 (witness): a concrete pair of phrasings differing in case and
whitespace only, asked at times 0 and 10 on an initially empty cache. -/
theorem C3_cache_idempotence_witness :
    cacheKey " How  many rows? " "db0" = cacheKey "how many rows?" "db0" ∧
    (answerWithCache [] " How  many rows? " "db0" 0 "Twelve.").text =
      "Twelve." ∧
    (answerWithCache (answerWithCache [] " How  many rows? " "db0" 0
        "Twelve.").cache "how many rows?" "db0" 10 "WRONG").text =
      (answerWithCache [] " How  many rows? " "db0" 0 "Twelve.").text ∧
    (answerWithCache (answerWithCache [] " How  many rows? " "db0" 0
        "Twelve.").cache "how many rows?" "db0" 10 "WRONG").computed =
      false := by
  exact C3_cache_idempotence " How  many rows? " "how many rows?" "db0"
    (by decide) [] "Twelve." "WRONG" 0 10 rfl (by decide)

/-- C7: the default TTL is one hour and the default capacity 1000; a
stored entry carries expiry = insertion time + TTL; after any insertion
the cache holds at most 1000 entries and no expired entry at all (expired
entries are removed first); and whenever removing the expired entries
already meets the capacity bound, nothing else is removed — the
oldest-inserted entries are dropped only after expired removal falls
short. -/
theorem C7_cache_eviction (c : List CacheEntry) (k : CacheKey) (ans : String)
    (now : Nat) :
    queryCacheTTL = 3600 ∧ queryCacheMaxEntries = 1000 ∧
    (∃ rest, cachePut c k ans now =
      { key := k, answer := ans, insertTime := now,
        expiry := now + queryCacheTTL } :: rest) ∧
    (cachePut c k ans now).length ≤ queryCacheMaxEntries ∧
    (∀ e ∈ cachePut c k ans now, now < e.expiry) ∧
    ((removeExpired now
        ({ key := k, answer := ans, insertTime := now,
           expiry := now + queryCacheTTL }
          :: c.filter (fun e => decide (e.key ≠ k)))).length ≤
        queryCacheMaxEntries →
      cachePut c k ans now =
        removeExpired now
          ({ key := k, answer := ans, insertTime := now,
             expiry := now + queryCacheTTL }
            :: c.filter (fun e => decide (e.key ≠ k)))) := by
  refine ⟨rfl, rfl, cachePut_head c k ans now, ?_, ?_, ?_⟩
  · unfold cachePut enforceCapacity
    exact List.length_take_le queryCacheMaxEntries _
  · intro e he
    have he2 : e ∈ removeExpired now
        ({ key := k, answer := ans, insertTime := now,
           expiry := now + queryCacheTTL }
          :: c.filter (fun e => decide (e.key ≠ k))) :=
      List.take_subset _ _ he
    have := (List.mem_filter.mp he2).2
    exact of_decide_eq_true this
  · intro hlen
    unfold cachePut enforceCapacity
    exact List.take_of_length_le hlen

/-- C7 (witness): inserting into an empty cache at time 0 stores one
entry expiring at 3600, within the capacity bound. -/
theorem C7_cache_eviction_witness :
    cachePut [] (cacheKey "q" "db0") "The answer." 0 =
      [{ key := cacheKey "q" "db0", answer := "The answer.",
         insertTime := 0, expiry := 3600 }] ∧
    (cachePut [] (cacheKey "q" "db0") "The answer." 0).length ≤
      queryCacheMaxEntries := by
  have h := C7_cache_eviction [] (cacheKey "q" "db0") ("The answer.") 0
  refine ⟨?_, h.2.2.2.1⟩
  have h6 := h.2.2.2.2.2 (by decide)
  rw [h6]
  decide

/-- C5 (counterexample): a timeout fault during statement execution —
transient per the claim — is not retried: execute_with_retry re-raises it
after a single attempt, instead of retrying three times and yielding a
session-unavailable error, and the re-raised failure does not carry the
offending SQL. -/
theorem C5_retry_counterexample :
    execute_with_retry (fun _ => ExecOutcome.fail ("Connection timeout"))
        "SELECT 1" =
      { result := ExecResult.raised ("Connection timeout"),
        attemptsUsed := 1 } ∧
    (1 : Nat) ≠ retryCount ∧
    isDbFunctionFault ("Connection timeout") = false ∧
    strContains ("Connection timeout") ("SELECT 1") = false := by
  refine ⟨by decide, by decide, by decide, by decide⟩

/-- C5 (amended): connection establishment retries every failure up to
the bound of 3, sleeping 500ms then 1000ms between attempts — linearly
growing, not exponential — and raises the session error on exhaustion,
while succeeding as soon as an attempt succeeds; statement execution
retries, with the same bound, exactly the failures whose message contains
"database function error" case-insensitively, re-raising the last such
failure as it is, and re-raises any other failure immediately after one
attempt, carrying only the engine message. -/
theorem C5_retry_amended :
    (∀ connOk : Nat → Bool, (∀ k, k < retryCount → connOk k = false) →
      get_robust_connection connOk =
        { result := .sessionError ("Failed to establish connection"),
          attemptsUsed := 3, sleepsMs := [500, 1000] }) ∧
    (∀ connOk : Nat → Bool, connOk 0 = false → connOk 1 = true →
      get_robust_connection connOk =
        { result := .conn 1, attemptsUsed := 2, sleepsMs := [500] }) ∧
    (∀ engine sql, (∀ k, k < retryCount →
        ∃ m, engine k = ExecOutcome.fail m ∧ isDbFunctionFault m = true) →
      ∃ m, engine 2 = ExecOutcome.fail m ∧
        execute_with_retry engine sql =
          { result := ExecResult.raised m, attemptsUsed := 3 }) ∧
    (∀ engine sql m, engine 0 = ExecOutcome.fail m →
      isDbFunctionFault m = false →
      execute_with_retry engine sql =
        { result := ExecResult.raised m, attemptsUsed := 1 }) ∧
    (∀ engine sql p, engine 0 = ExecOutcome.rows p →
      execute_with_retry engine sql =
        { result := ExecResult.ok p, attemptsUsed := 1 }) := by
  refine ⟨?_, ?_, ?_, ?_, ?_⟩
  · intro connOk hfail
    have h0 : connOk 0 = false := hfail 0 (by decide)
    have h1 : connOk 1 = false := hfail 1 (by decide)
    have h2 : connOk 2 = false := hfail 2 (by decide)
    simp [get_robust_connection, retryCount, connectLoop, h0, h1, h2]
  · intro connOk h0 h1
    simp [get_robust_connection, retryCount, connectLoop, h0, h1]
  · intro engine sql h
    obtain ⟨m0, he0, hf0⟩ := h 0 (by decide)
    obtain ⟨m1, he1, hf1⟩ := h 1 (by decide)
    obtain ⟨m2, he2, hf2⟩ := h 2 (by decide)
    refine ⟨m2, he2, ?_⟩
    simp [execute_with_retry, retryCount, executeLoop, he0, hf0, he1, hf1,
      he2, hf2]
  · intro engine sql m he hf
    simp [execute_with_retry, retryCount, executeLoop, he, hf]
  · intro engine sql p he
    simp [execute_with_retry, retryCount, executeLoop, he]

/-- C5 (witness): the amended behavior at concrete attempt outcomes — a
never-connecting connection, a database-function fault on every execution
attempt, and a syntax error on the first attempt. -/
theorem C5_retry_amended_witness :
    get_robust_connection (fun _ => false) =
      { result := .sessionError ("Failed to establish connection"),
        attemptsUsed := 3, sleepsMs := [500, 1000] } ∧
    (∃ m, (fun _ => ExecOutcome.fail ("Database Function Error: strftime"))
        2 = ExecOutcome.fail m ∧
      execute_with_retry
          (fun _ => ExecOutcome.fail ("Database Function Error: strftime"))
          "SELECT strftime(x) FROM t" =
        { result := ExecResult.raised m, attemptsUsed := 3 }) ∧
    execute_with_retry (fun _ => ExecOutcome.fail ("Parser Error: syntax"))
        "SELEC 1" =
      { result := ExecResult.raised ("Parser Error: syntax"),
        attemptsUsed := 1 } := by
  obtain ⟨h1, _, h3, h4, _⟩ := C5_retry_amended
  refine ⟨h1 (fun _ => false) (fun k _ => rfl), ?_, ?_⟩
  · exact h3 (fun _ => ExecOutcome.fail ("Database Function Error: strftime"))
      "SELECT strftime(x) FROM t"
      (fun k _ => ⟨"Database Function Error: strftime", rfl, by decide⟩)
  · exact h4 (fun _ => ExecOutcome.fail ("Parser Error: syntax")) "SELEC 1"
      ("Parser Error: syntax") rfl (by decide)

/-- C6 (code evaluated at the failing input): on an internal response
dict that lacks an "answer" key, extract_clean_response returns the
stringified dict itself, and the text handed to the caller contains the
internal success flag and the session id. -/
theorem C6_clean_text_fallback_exposes_internals :
    pyStrOf (extract_clean_response
        (.dict [("success", .boolVal true),
                ("session_id", .str "74422c1b-0606-41ba")])) =
      "\x7b\x27success\x27: True, \x27session_id\x27: \x2774422c1b-0606-41ba\x27\x7d" ∧
    strContains (pyStrOf (extract_clean_response
        (.dict [("success", .boolVal true),
                ("session_id", .str "74422c1b-0606-41ba")])))
      ("session_id") = true ∧
    strContains (pyStrOf (extract_clean_response
        (.dict [("success", .boolVal true),
                ("session_id", .str "74422c1b-0606-41ba")])))
      ("success") = true := by
  refine ⟨by decide, by decide, by decide⟩

theorem cacheRaceStep_inv (ans : String) (s : CacheRace)
    (hc : s.cache = none ∨ s.cache = some ans)
    (hd : ∀ (j : Nat) (v : String), s.pcs[j]? = some (CachePC.done v) → v = ans) (i : Nat) :
    ((cacheRaceStep ans s i).cache = none ∨
      (cacheRaceStep ans s i).cache = some ans) ∧
    (∀ (j : Nat) (v : String), (cacheRaceStep ans s i).pcs[j]? = some (CachePC.done v) →
      v = ans) := by
  unfold cacheRaceStep
  cases hpc : s.pcs[i]? with
  | none => exact ⟨hc, hd⟩
  | some pc =>
    have hlen : i < s.pcs.length := (List.getElem?_eq_some_iff.mp hpc).1
    cases pc with
    | check =>
      cases hcache : s.cache with
      | some v =>
        have hva : v = ans := by
          rcases hc with h | h
          · rw [h] at hcache
            exact Option.noConfusion hcache
          · rw [h] at hcache
            exact (Option.some.inj hcache).symm
        refine ⟨Or.inr (by rw [hva]), ?_⟩
        intro j w hj
        by_cases hij : j = i
        · subst hij
          rw [List.getElem?_set_self hlen] at hj
          rw [← hva]
          exact (CachePC.done.inj (Option.some.inj hj)).symm
        · rw [List.getElem?_set_ne (Ne.symm hij)] at hj
          exact hd j w hj
      | none =>
        refine ⟨Or.inl rfl, ?_⟩
        intro j w hj
        by_cases hij : j = i
        · subst hij
          rw [List.getElem?_set_self hlen] at hj
          exact CachePC.noConfusion (Option.some.inj hj)
        · rw [List.getElem?_set_ne (Ne.symm hij)] at hj
          exact hd j w hj
    | compute =>
      refine ⟨Or.inr rfl, ?_⟩
      intro j w hj
      by_cases hij : j = i
      · subst hij
        rw [List.getElem?_set_self hlen] at hj
        exact (CachePC.done.inj (Option.some.inj hj)).symm
      · rw [List.getElem?_set_ne (Ne.symm hij)] at hj
        exact hd j w hj
    | done v => exact ⟨hc, hd⟩

theorem cacheRaceRun_inv (ans : String) (sched : List Nat) :
    ∀ s : CacheRace, (s.cache = none ∨ s.cache = some ans) →
      (∀ (j : Nat) (v : String), s.pcs[j]? = some (CachePC.done v) → v = ans) →
      ((cacheRaceRun ans s sched).cache = none ∨
        (cacheRaceRun ans s sched).cache = some ans) ∧
      (∀ (j : Nat) (v : String), (cacheRaceRun ans s sched).pcs[j]? = some (CachePC.done v) →
        v = ans) := by
  induction sched with
  | nil => exact fun s hc hd => ⟨hc, hd⟩
  | cons i rest ih =>
    intro s hc hd
    have h := cacheRaceStep_inv ans s hc hd i
    exact ih (cacheRaceStep ans s i) h.1 h.2

theorem cacheRaceStep_stable (ans : String) (s : CacheRace) (i : Nat)
    (hsome : ∃ v, s.cache = some v)
    (hnc : ∀ (j : Nat), s.pcs[j]? ≠ some CachePC.compute) :
    (cacheRaceStep ans s i).cache = s.cache ∧
    (∀ (j : Nat), (cacheRaceStep ans s i).pcs[j]? ≠ some CachePC.compute) ∧
    (cacheRaceStep ans s i).computeCount = s.computeCount := by
  unfold cacheRaceStep
  cases hpc : s.pcs[i]? with
  | none => exact ⟨rfl, hnc, rfl⟩
  | some pc =>
    have hlen : i < s.pcs.length := (List.getElem?_eq_some_iff.mp hpc).1
    cases pc with
    | check =>
      obtain ⟨v, hv⟩ := hsome
      rw [hv]
      refine ⟨rfl, ?_, rfl⟩
      intro j
      by_cases hij : j = i
      · subst hij
        rw [List.getElem?_set_self hlen]
        intro hcontra
        exact CachePC.noConfusion (Option.some.inj hcontra)
      · rw [List.getElem?_set_ne (Ne.symm hij)]
        exact hnc j
    | compute => exact absurd hpc (hnc i)
    | done v => exact ⟨rfl, hnc, rfl⟩

theorem cacheRaceRun_stable (ans : String) (sched : List Nat) :
    ∀ s : CacheRace, (∃ v, s.cache = some v) →
      (∀ (j : Nat), s.pcs[j]? ≠ some CachePC.compute) →
      (cacheRaceRun ans s sched).computeCount = s.computeCount := by
  induction sched with
  | nil => exact fun s _ _ => rfl
  | cons i rest ih =>
    intro s hsome hnc
    have h := cacheRaceStep_stable ans s i hsome hnc
    have h2 := ih (cacheRaceStep ans s i) (by
      obtain ⟨v, hv⟩ := hsome
      exact ⟨v, h.1.trans hv⟩) h.2.1
    show (cacheRaceRun ans (cacheRaceStep ans s i) rest).computeCount =
      s.computeCount
    rw [h2, h.2.2]

/-- C2 (counterexample): under the documented check-then-act integration,
two concurrent answer calls on a cold cache that both check before either
stores run the computation twice — computeFn is not invoked exactly once
— even though both callers end with the same deterministic text. -/
theorem C2_singleflight_counterexample :
    (cacheRaceRun "A" (cacheRaceInit 2) [0, 1, 0, 1]).computeCount = 2 ∧
    (cacheRaceRun "A" (cacheRaceInit 2) [0, 1, 0, 1]).pcs =
      [CachePC.done "A", CachePC.done "A"] ∧
    (2 : Nat) ≠ 1 := by
  refine ⟨by decide, by decide, by decide⟩

/-- C2 (amended): under the check-then-act integration, every caller that
finishes returns the deterministic computed text, in every interleaving;
and once some computation has been stored and no caller is
mid-computation, no further interleaving ever runs the computation again
— so callers serialized behind a completed store are served from the
cache, while overlapping cold callers may duplicate the computation. -/
theorem C2_cache_race_amended (ans : String) (n : Nat) (sched : List Nat) :
    (∀ (j : Nat) (v : String), (cacheRaceRun ans (cacheRaceInit n) sched).pcs[j]? =
      some (CachePC.done v) → v = ans) ∧
    (∀ sched2,
      (∃ v, (cacheRaceRun ans (cacheRaceInit n) sched).cache = some v) →
      (∀ (j : Nat), (cacheRaceRun ans (cacheRaceInit n) sched).pcs[j]? ≠
        some CachePC.compute) →
      (cacheRaceRun ans (cacheRaceRun ans (cacheRaceInit n) sched)
          sched2).computeCount =
        (cacheRaceRun ans (cacheRaceInit n) sched).computeCount) := by
  have hd0 : ∀ (j : Nat) (v : String), (cacheRaceInit n).pcs[j]? = some (CachePC.done v) →
      v = ans := by
    intro j v hj
    simp only [cacheRaceInit] at hj
    rw [List.getElem?_replicate] at hj
    by_cases hjn : j < n
    · rw [if_pos hjn] at hj
      exact CachePC.noConfusion (Option.some.inj hj)
    · rw [if_neg hjn] at hj
      exact Option.noConfusion hj
  constructor
  · exact (cacheRaceRun_inv ans sched (cacheRaceInit n) (Or.inl rfl) hd0).2
  · intro sched2 hsome hnc
    exact cacheRaceRun_stable ans sched2 _ hsome hnc

/-- C2 (witness): the amended statement at two callers fully serialized —
the first completes its store before the second checks — where the
computation runs exactly once in total and a further step adds nothing. -/
theorem C2_cache_race_amended_witness :
    ("A" : String) = "A" ∧
    (cacheRaceRun "A" (cacheRaceRun "A" (cacheRaceInit 2) [0, 0, 1])
        [1, 0]).computeCount =
      (cacheRaceRun "A" (cacheRaceInit 2) [0, 0, 1]).computeCount ∧
    (cacheRaceRun "A" (cacheRaceInit 2) [0, 0, 1]).computeCount = 1 := by
  have h := C2_cache_race_amended "A" 2 [0, 0, 1]
  have hlen : (cacheRaceRun "A" (cacheRaceInit 2) [0, 0, 1]).pcs.length = 2 := by
    decide
  have hnc : ∀ (j : Nat), (cacheRaceRun "A" (cacheRaceInit 2) [0, 0, 1]).pcs[j]? ≠
      some CachePC.compute := by
    intro j
    by_cases hj : j < 2
    · interval_cases j
      · decide
      · decide
    · rw [List.getElem?_eq_none (by rw [hlen]; omega)]
      simp
  refine ⟨h.1 0 "A" (by decide), h.2 [1, 0] ⟨"A", by decide⟩ hnc, by decide⟩
